import Mathlib

/-!
Verification development for the document-structurer core of the
image-extractor tool: the heuristic line classification and tabular
reconstruction shared by the word-processor writer (`save_as_docx`) and
the spreadsheet writer (`save_as_excel`).

Lines of text are modelled as lists of characters (`Line`), a full text
blob likewise; the Python string operations used by the source
(`str.strip`, `str.lower`, `in` substring tests, `str.split`,
`re.search` / `re.findall` on the three fixed patterns) are embedded as
structurally recursive functions on character lists.
-/

/-- A text line (or a whole text blob), as a list of characters. -/
abbrev Line := List Char

/-- Character data of a string literal. -/
def str (s : String) : Line := s.data

/-- Python `text.split('\n')`: split into lines at a separator character;
the empty text yields one empty field. -/
def splitOnChar (sep : Char) : Line → List Line
  | [] => [[]]
  | c :: cs =>
    let r := splitOnChar sep cs
    if c = sep then [] :: r
    else
      match r with
      | [] => [[c]]
      | g :: gs => (c :: g) :: gs

/-- Python `str.strip()`: drop whitespace from both ends. -/
def strip (l : Line) : Line :=
  ((l.dropWhile Char.isWhitespace).reverse.dropWhile Char.isWhitespace).reverse

/-- Python `str.lower()` (ASCII letters; the Arabic keywords are caseless). -/
def lower (l : Line) : Line := l.map Char.toLower

/-- `pat` occurs at the very start of `l`. -/
def leadsWith : Line → Line → Bool
  | [], _ => true
  | _ :: _, [] => false
  | p :: ps, c :: cs => p = c && leadsWith ps cs

/-- Python `pat in l`: `pat` occurs somewhere in `l` as a contiguous run. -/
def hasSubstr (pat : Line) : Line → Bool
  | [] => pat.isEmpty
  | c :: rest => leadsWith pat (c :: rest) || hasSubstr pat rest

/-! ## Financial-document detection and the line-classifier state machine

From `save_as_docx` (and the identical code in `save_as_excel`): the
keyword list `financial_keywords`, the test
`any(keyword in text.lower() for keyword in financial_keywords)`, the
regex alternations used to detect item-section and total-section lines,
and the two-flag state machine that distributes stripped, non-blank
lines over `header_section` / `item_section` / `total_section`. -/

/-- The `financial_keywords` list. -/
def financialKeywords : List Line :=
  [str "invoice", str "bill", str "receipt", str "statement",
   str "purchase order", str "po", str "ledger",
   str "فاتورة", str "حساب", str "إيصال", str "أمر شراء", str "دفتر الأستاذ"]

/-- `is_financial = any(keyword in text.lower() for keyword in financial_keywords)`. -/
def isFinancial (text : Line) : Bool :=
  financialKeywords.any (fun k => hasSubstr k (lower text))

/-- The alternatives of the item-section indicator regex
`(البيان|item|description|qty|quantity|سعر|price|amount|المبلغ)`. -/
def itemKeywords : List Line :=
  [str "البيان", str "item", str "description", str "qty", str "quantity",
   str "سعر", str "price", str "amount", str "المبلغ"]

/-- The alternatives of the total-section indicator regex
`(total|subtotal|المجموع|الإجمالي|vat|ضريبة|tax)`. -/
def totalKeywords : List Line :=
  [str "total", str "subtotal", str "المجموع", str "الإجمالي",
   str "vat", str "ضريبة", str "tax"]

/-- `re.search(itemPattern, line.lower())` succeeds: the pattern is a plain
alternation of literals, so this is a substring test for any of them. -/
def matchesItem (line : Line) : Bool :=
  itemKeywords.any (fun k => hasSubstr k (lower line))

/-- `re.search(totalPattern, line.lower())` succeeds. -/
def matchesTotal (line : Line) : Bool :=
  totalKeywords.any (fun k => hasSubstr k (lower line))

/-- The boilerplate preamble checked with
`lines[0].startswith("Here is the text extracted from")`. -/
def preambleMarker : Line := str "Here is the text extracted from"

/-- Drop the first line when it starts with the boilerplate marker. -/
def dropPreamble : List Line → List Line
  | [] => []
  | l :: rest => if leadsWith preambleMarker l then rest else l :: rest

/-- The mutable state of the classification loop: the two flags
`in_items` / `in_totals` and the three accumulated section lists. -/
structure ClassAcc where
  inItems : Bool
  inTotals : Bool
  header : List Line
  items : List Line
  totals : List Line
deriving DecidableEq

/-- The initial loop state: both flags `False`, all sections empty. -/
def initAcc : ClassAcc := ⟨false, false, [], [], []⟩

/-- One iteration of the classification loop of `save_as_docx`
(lines 178–199): strip the line, skip it when blank, then the
item-indicator branch, the total-indicator branch (guarded by
`in_items`), and the three state-directed fallthrough branches. -/
def classifyStepDocx (acc : ClassAcc) (raw : Line) : ClassAcc :=
  let line := strip raw
  if line.isEmpty then acc
  else if matchesItem line then
    { acc with inItems := true, inTotals := false, items := acc.items ++ [line] }
  else if matchesTotal line && acc.inItems then
    { acc with inItems := false, inTotals := true, totals := acc.totals ++ [line] }
  else if acc.inItems then { acc with items := acc.items ++ [line] }
  else if acc.inTotals then { acc with totals := acc.totals ++ [line] }
  else { acc with header := acc.header ++ [line] }

/-- One iteration of the identical classification loop of `save_as_excel`
(lines 416–437). -/
def classifyStepXlsx (acc : ClassAcc) (raw : Line) : ClassAcc :=
  let line := strip raw
  if line.isEmpty then acc
  else if matchesItem line then
    { acc with inItems := true, inTotals := false, items := acc.items ++ [line] }
  else if matchesTotal line && acc.inItems then
    { acc with inItems := false, inTotals := true, totals := acc.totals ++ [line] }
  else if acc.inItems then { acc with items := acc.items ++ [line] }
  else if acc.inTotals then { acc with totals := acc.totals ++ [line] }
  else { acc with header := acc.header ++ [line] }

/-- Run the `save_as_docx` classification loop over a list of raw lines. -/
def classifyLinesDocx (lines : List Line) : ClassAcc :=
  lines.foldl classifyStepDocx initAcc

/-- Run the `save_as_excel` classification loop over a list of raw lines. -/
def classifyLinesXlsx (lines : List Line) : ClassAcc :=
  lines.foldl classifyStepXlsx initAcc

/-- The `lines` variable both writers iterate over: the text split on
newlines, with the boilerplate preamble dropped. -/
def linesOf (text : Line) : List Line := dropPreamble (splitOnChar '\n' text)

/-- Full docx-side classification of a text blob: split on newlines, drop
the boilerplate preamble, run the loop. -/
def classifyDocx (text : Line) : ClassAcc := classifyLinesDocx (linesOf text)

/-- Full xlsx-side classification of a text blob. -/
def classifyXlsx (text : Line) : ClassAcc := classifyLinesXlsx (linesOf text)

/-! ## Per-line section assignment (tag view of the same loop)

For the claims about which section an individual line is assigned to, the
same branch structure is expressed as a step function that returns the
new flag state together with the section tag of the line. -/

/-- The two classification flags, without the accumulated lists. -/
structure SMState where
  inItems : Bool
  inTotals : Bool
deriving DecidableEq

/-- The section a single line is assigned to (`skipped` for blank lines,
which the loop never emits). -/
inductive LineTag where
  | header
  | lineItems
  | totals
  | skipped
deriving DecidableEq

/-- The branch structure of one loop iteration, as (new flag state, tag of
this line). Mirrors `classifyStepDocx` branch for branch. -/
def stepTag (st : SMState) (raw : Line) : SMState × LineTag :=
  let line := strip raw
  if line.isEmpty then (st, .skipped)
  else if matchesItem line then (⟨true, false⟩, .lineItems)
  else if matchesTotal line && st.inItems then (⟨false, true⟩, .totals)
  else if st.inItems then (st, .lineItems)
  else if st.inTotals then (st, .totals)
  else (st, .header)

/-- Flag-state part of one iteration. -/
def stepState (st : SMState) (raw : Line) : SMState := (stepTag st raw).1

/-- Tags of all lines, threading the flag state left to right. -/
def tagsAux (st : SMState) : List Line → List LineTag
  | [] => []
  | l :: rest =>
    let p := stepTag st l
    p.2 :: tagsAux p.1 rest

/-- Tags of all lines starting from the initial state. -/
def tags (lines : List Line) : List LineTag := tagsAux ⟨false, false⟩ lines

/-- Section tag assigned to line `i` (defaulting to `skipped` out of range). -/
def tagAt (lines : List Line) (i : Nat) : LineTag :=
  (tags lines).getD i .skipped

/-- Flag state just before line `i` is processed. -/
def stateAt (lines : List Line) (i : Nat) : SMState :=
  (lines.take i).foldl stepState ⟨false, false⟩

example :
    classifyDocx (str "invoice\nitem a\ntotal: 5\nitem b") =
      ⟨true, false, [str "invoice"], [str "item a", str "item b"], [str "total: 5"]⟩ := by
  decide

example :
    tags [str "invoice", str "item a", str "total: 5", str "item b"] =
      [.header, .lineItems, .totals, .lineItems] := by
  decide

/-! ## Numeric tokens: `re.findall(r'\d+(?:,\d+)*(?:\.\d+)?', line)`

The pattern is an alternation-free sequence of character classes that are
pairwise disjoint with their successors, so Python's leftmost greedy
matching coincides with plain greedy scanning: at each position, a match
starts with a maximal digit run, then greedily consumes `,digits` groups,
then an optional `.digits` fraction. -/

/-- Greedily consume `(?:,\d+)*`: returns (consumed characters, rest).
Each recursive step consumes a comma and at least one digit, so fuel
equal to the length of the input always suffices. -/
def commaGroupsAux : Nat → Line → Line × Line
  | 0, l => ([], l)
  | fuel + 1, ',' :: rest =>
    let ds := rest.takeWhile Char.isDigit
    if ds.isEmpty then ([], ',' :: rest)
    else
      let r := commaGroupsAux fuel (rest.dropWhile Char.isDigit)
      (',' :: (ds ++ r.1), r.2)
  | _ + 1, l => ([], l)

/-- Greedily consume `(?:,\d+)*`, fully fuelled. -/
def commaGroups (l : Line) : Line × Line := commaGroupsAux l.length l

/-- Greedily consume the optional `(?:\.\d+)?`: (consumed, rest). -/
def fracPart : Line → Line × Line
  | '.' :: rest =>
    let ds := rest.takeWhile Char.isDigit
    if ds.isEmpty then ([], '.' :: rest)
    else ('.' :: ds, rest.dropWhile Char.isDigit)
  | l => ([], l)

/-- Attempt the numeric-token pattern anchored at the head of `l`:
on success, the matched token and the rest of the line. -/
def matchNumAt (l : Line) : Option (Line × Line) :=
  let d1 := l.takeWhile Char.isDigit
  if d1.isEmpty then none
  else
    let r1 := l.dropWhile Char.isDigit
    let cg := commaGroups r1
    let fp := fracPart cg.2
    some (d1 ++ cg.1 ++ fp.1, fp.2)

/-- Scanning worker for `re.findall`: at each position try the anchored
match; on success emit it and resume after it, else advance one
character. Fuel bounds the number of scan steps; each step removes at
least one character, so `l.length` steps always suffice. -/
def findNumsAux : Nat → Line → List Line
  | 0, _ => []
  | _ + 1, [] => []
  | fuel + 1, c :: rest =>
    match matchNumAt (c :: rest) with
    | some p => p.1 :: findNumsAux fuel p.2
    | none => findNumsAux fuel rest

/-- `re.findall(r'\d+(?:,\d+)*(?:\.\d+)?', line)`. -/
def findNums (l : Line) : List Line := findNumsAux l.length l

/-- `re.split(r'\d+(?:,\d+)*(?:\.\d+)?', line)[0]`: the text before the
first position at which the numeric-token pattern matches. -/
def beforeFirstNum : Line → Line
  | [] => []
  | c :: rest =>
    match matchNumAt (c :: rest) with
    | some _ => []
    | none => c :: beforeFirstNum rest

/-- Item-row cell extraction shared verbatim by `save_as_docx`
(lines 276–303) and `save_as_excel` (lines 481–507): with two or more
numeric tokens, the stripped text before the first token (omitted when
empty) followed by the tokens; otherwise the whole line as one cell. -/
def itemCells (line : Line) : List Line :=
  let numbers := findNums line
  if numbers.isEmpty = false && 2 ≤ numbers.length then
    let d := strip (beforeFirstNum line)
    if d.isEmpty then numbers else d :: numbers
  else [line]

example : findNums (str "Widget A 3 10.50 31.50") =
    [str "3", str "10.50", str "31.50"] := by decide
example : itemCells (str "Widget A 3 10.50 31.50") =
    [str "Widget A", str "3", str "10.50", str "31.50"] := by decide
example : findNums (str "1,200.50 x 3.10.9") =
    [str "1,200.50", str "3.10", str "9"] := by decide

/-! ## Colon key/value split and the currency-amount pattern -/

/-- Python `':' in line`. -/
def hasColon (l : Line) : Bool := l.any (fun c => c = ':')

/-- Python `line.split(':', 1)` when a colon is present: the text before
the first colon and the text after it. -/
def splitColon : Line → Line × Line
  | [] => ([], [])
  | c :: rest =>
    if c = ':' then ([], rest)
    else
      let p := splitColon rest
      (c :: p.1, p.2)

/-- Character class `[\d,\.]` of the currency-amount pattern. -/
def isAmtChar (c : Char) : Bool := c.isDigit || c = ',' || c = '.'

/-- ASCII uppercase, the `[A-Z]` class. -/
def isUpperAZ (c : Char) : Bool := 'A' ≤ c && c ≤ 'Z'

/-- Attempt `([\d,\.]+)\s*([A-Z]{3})` anchored at the head of `l`; the
three classes are pairwise disjoint, so greedy matching is exact.
Returns the whole match `group(0)` on success. -/
def matchCurrencyAt (l : Line) : Option Line :=
  let p1 := l.takeWhile isAmtChar
  if p1.isEmpty then none
  else
    let r1 := l.dropWhile isAmtChar
    let sp := r1.takeWhile Char.isWhitespace
    match r1.dropWhile Char.isWhitespace with
    | a :: b :: c :: _ =>
      if isUpperAZ a && isUpperAZ b && isUpperAZ c then
        some (p1 ++ sp ++ [a, b, c])
      else none
    | _ => none

/-- `re.search(r'([\d,\.]+)\s*([A-Z]{3})', line)`: leftmost match. -/
def searchCurrency : Line → Option Line
  | [] => none
  | c :: rest =>
    match matchCurrencyAt (c :: rest) with
    | some m => some m
    | none => searchCurrency rest

/-- Python `line.replace(pat, '')` (all non-overlapping occurrences, left
to right); `pat` is always a nonempty regex match here. Each step
consumes at least one character, so fuel equal to the length of the
input always suffices. -/
def removeAllAux (pat : Line) : Nat → Line → Line
  | 0, _ => []
  | _ + 1, [] => []
  | fuel + 1, c :: rest =>
    if leadsWith pat (c :: rest) && pat.isEmpty = false then
      removeAllAux pat fuel ((c :: rest).drop pat.length)
    else c :: removeAllAux pat fuel rest

/-- Python `line.replace(pat, '')`, fully fuelled. -/
def removeAll (pat l : Line) : Line := removeAllAux pat l.length l

example : searchCurrency (str "150.00 AED") = some (str "150.00 AED") := by decide
example : removeAll (str "150.00 AED") (str "150.00 AED") = [] := by decide

/-! ## Item-table column inference

`save_as_docx` lines 228–267: if the first item line matches the
column-header regex, the column count is `max(count, 2)` where `count`
is the number of indicators of `column_indicators` occurring in it, and
the header labels are the capitalized hits among
`['description', 'qty', 'price', 'amount']` padded with `"Column N"`.
`save_as_excel` lines 452–474 instead collect the raw matching
indicators, falling back to a fixed four-label default. -/

/-- The alternatives of the docx first-line column-header regex
`(description|qty|price|amount|البيان|الكمية|السعر|المبلغ)`. -/
def columnHeaderKeywords : List Line :=
  [str "description", str "qty", str "price", str "amount",
   str "البيان", str "الكمية", str "السعر", str "المبلغ"]

/-- The `column_indicators` list of `save_as_docx`, identical to the
`potential_columns` list of `save_as_excel`. -/
def columnIndicators : List Line :=
  [str "item", str "description", str "qty", str "quantity", str "price",
   str "amount", str "total",
   str "البيان", str "الوصف", str "الكمية", str "السعر", str "المبلغ"]

/-- The docx check whether the first item line might contain column headers. -/
def firstLineMatches (l : Line) : Bool :=
  columnHeaderKeywords.any (fun k => hasSubstr k (lower l))

/-- `sum(1 for indicator in column_indicators if indicator.lower() in
first_line.lower())`. -/
def indicatorCount (l : Line) : Nat :=
  columnIndicators.countP (fun k => hasSubstr k (lower l))

/-- `num_columns` of `save_as_docx`: `max(count, 2)` behind the header
check, `1` otherwise. -/
def docxNumColumns (l : Line) : Nat :=
  if firstLineMatches l then max (indicatorCount l) 2 else 1

/-- Python `str.capitalize()`: first character uppercased, the remainder
lowercased. -/
def capitalize : Line → Line
  | [] => []
  | c :: cs => c.toUpper :: cs.map Char.toLower

/-- Decimal digits of `n`. -/
def natDigits (n : Nat) : Line := Nat.toDigits 10 n

/-- The docx `while len(headers) < num_columns: headers.append(f"Column
{len(headers)+1}")` loop, run for its exact number of iterations. -/
def padHeadersAux : Nat → List Line → List Line
  | 0, hs => hs
  | k + 1, hs => padHeadersAux k (hs ++ [str "Column " ++ natDigits (hs.length + 1)])

/-- Pad a label list with `"Column N"` entries up to `n` labels. -/
def padHeaders (hs : List Line) (n : Nat) : List Line :=
  padHeadersAux (n - hs.length) hs

/-- The labels collected from `['description', 'qty', 'price', 'amount']`
by presence in the first line, capitalized. -/
def headerBase (l : Line) : List Line :=
  (([str "description", str "qty", str "price", str "amount"].filter
      (fun k => hasSubstr k (lower l))).map capitalize)

/-- The docx header-label row for a first item line that passed the
column-header check. -/
def docxHeaders (l : Line) : List Line :=
  padHeaders (headerBase l) (docxNumColumns l)

/-- The xlsx column labels: the members of `potential_columns` occurring
in the first item line, in list order, or the fixed default when none
occurs. -/
def xlsxColumns (l : Line) : List Line :=
  let cols := columnIndicators.filter (fun c => hasSubstr c (lower l))
  if cols.isEmpty then
    [str "Description", str "Quantity", str "Price", str "Amount"]
  else cols

example : docxNumColumns (str "Description Qty Price Amount") = 4 := by decide
example : docxHeaders (str "Description Qty Price Amount") =
    [str "Description", str "Qty", str "Price", str "Amount"] := by decide
example : xlsxColumns (str "Description Qty Price Amount") =
    [str "description", str "qty", str "price", str "amount"] := by decide
example : docxHeaders (str "price table") = [str "Price", str "Column 2"] := by decide

/-! ## Renderer row shapes for Header and Totals sections -/

/-- A rendered Header row: a key/value pair from a colon split, or a
single merged cell. -/
inductive HdrRow where
  | pair (k v : Line)
  | merged (l : Line)
deriving DecidableEq

/-- `save_as_docx` lines 212–222: Header-section row. -/
def headerRowOf (line : Line) : HdrRow :=
  if hasColon line then
    let p := splitColon line
    .pair (strip p.1) (strip p.2)
  else .merged line

/-- A rendered Totals row: a key/value pair from a colon split, a
description/amount pair from the currency pattern, or a merged cell
with its grand-total bold flag. -/
inductive TotRow where
  | pair (k v : Line)
  | amount (d a : Line)
  | merged (l : Line) (bold : Bool)
deriving DecidableEq

/-- The alternatives of the grand-total bold regex
`(total|المجموع|الإجمالي)`. -/
def grandTotalKeywords : List Line :=
  [str "total", str "المجموع", str "الإجمالي"]

/-- `save_as_docx` lines 311–333: Totals-section row. -/
def totalsRowOf (line : Line) : TotRow :=
  if hasColon line then
    let p := splitColon line
    .pair (strip p.1) (strip p.2)
  else
    match searchCurrency line with
    | some m => .amount (strip (removeAll m line)) m
    | none => .merged line (grandTotalKeywords.any (fun k => hasSubstr k (lower line)))

example : totalsRowOf (str "Total: 150.00 AED") =
    .pair (str "Total") (str "150.00 AED") := by decide
example : totalsRowOf (str "150.00 AED") = .amount [] (str "150.00 AED") := by decide

/-! ## Additional-Information tail capture (`save_as_docx` lines 336–348) -/

/-- The loop over the original (blank-line-inclusive) lines: once a line
whose stripped value equals the stripped value of some Totals-section
line has been seen, every later line is captured. -/
def captureTail (totals : List Line) : Bool → List Line → List Line
  | _, [] => []
  | true, l :: rest => l :: captureTail totals true rest
  | false, l :: rest =>
    if totals.any (fun t => strip t = strip l) then captureTail totals true rest
    else captureTail totals false rest

/-- `remaining_text` of `save_as_docx`. -/
def docxRemaining (lines totals : List Line) : List Line :=
  captureTail totals false lines

/-- `if remaining_text and any(line.strip() for line in remaining_text)`:
the Additional Information section is rendered. -/
def renderAddInfo (lines totals : List Line) : Bool :=
  (docxRemaining lines totals).isEmpty = false &&
    (docxRemaining lines totals).any (fun l => (strip l).isEmpty = false)

/-! ## Fallback path for non-financial documents -/

/-- One `save_as_excel` fallback row (lines 548–558): a two-cell split on
the first colon when present, else the raw line as a single cell. -/
def fallbackRow (line : Line) : List Line :=
  if hasColon line then
    let p := splitColon line
    [strip p.1, strip p.2]
  else [line]

/-- The `save_as_excel` fallback sheet: one row per raw line. -/
def xlsxFallback (text : Line) : List (List Line) :=
  (splitOnChar '\n' text).map fallbackRow

/-- The `save_as_docx` fallback output (lines 353–357): one paragraph per
raw line (an empty paragraph for a blank line). -/
def docxFallbackParas (text : Line) : List Line := splitOnChar '\n' text

/-! ## Docx renderer blocks over the classified sections -/

/-- The docx Header table rows. -/
def docxHeaderRows (hs : List Line) : List HdrRow := hs.map headerRowOf

/-- The docx Totals table rows. -/
def docxTotalsRows (ts : List Line) : List TotRow := ts.map totalsRowOf

/-- The docx Items block (`save_as_docx` lines 224–303): absent when the
item section is empty; otherwise the optional header-label row and the
data rows (cells truncated to the column count in the multi-column
case, whole lines as single cells in the single-column case). -/
def docxItemsBlock : List Line → Option (Option (List Line) × List (List Line))
  | [] => none
  | first :: rest =>
    let n := docxNumColumns first
    if 1 < n then
      some (some (docxHeaders first), rest.map (fun l => (itemCells l).take n))
    else
      some (none, (first :: rest).map (fun l => [l]))

/-! ## State-machine lemmas -/

/-- Exhaustive branch analysis of one classification step. -/
lemma stepTag_cases (st : SMState) (l : Line) :
    stepTag st l = (st, .skipped) ∧ (strip l).isEmpty = true ∨
    stepTag st l = (⟨true, false⟩, .lineItems) ∧ matchesItem (strip l) = true ∨
    stepTag st l = (⟨false, true⟩, .totals) ∧ st.inItems = true ∨
    stepTag st l = (st, .lineItems) ∧ st.inItems = true ∨
    stepTag st l = (st, .totals) ∧ st.inItems = false ∧ st.inTotals = true ∨
    stepTag st l = (st, .header) ∧ st.inItems = false ∧ st.inTotals = false := by
  unfold stepTag
  by_cases h1 : (strip l).isEmpty
  · simp [h1]
  · by_cases h2 : matchesItem (strip l)
    · simp [h1, h2]
    · by_cases h3 : matchesTotal (strip l) && st.inItems
      · have h3' := h3
        rw [Bool.and_eq_true] at h3'
        simp [h1, h2, h3, h3'.2]
      · by_cases h4 : st.inItems
        · simp [h1, h2, h3, h4]
        · by_cases h5 : st.inTotals
          · simp [h1, h2, h3, h4, h5]
          · simp [h1, h2, h3, h4, h5]

/-- A step that tags its line `totals` leaves the machine in the
`InTotals` flag state. -/
lemma stepTag_totals_state (st : SMState) (l : Line)
    (h : (stepTag st l).2 = LineTag.totals) : (stepTag st l).1 = ⟨false, true⟩ := by
  rcases stepTag_cases st l with ⟨he, _⟩ | ⟨he, _⟩ | ⟨he, _⟩ | ⟨he, _⟩ | ⟨he, hi, ht⟩ | ⟨he, _⟩
  all_goals rw [he] at h ⊢
  all_goals try simp_all
  obtain ⟨bi, bt⟩ := st
  simp_all

/-- From the `InTotals` flag state, a step tags its line `lineItems` only
when the line matches an item indicator. -/
lemma stepTag_items_of_totals (l : Line)
    (h : (stepTag ⟨false, true⟩ l).2 = LineTag.lineItems) :
    matchesItem (strip l) = true := by
  rcases stepTag_cases ⟨false, true⟩ l with
    ⟨he, _⟩ | ⟨he, hm⟩ | ⟨he, hi⟩ | ⟨he, hi⟩ | ⟨he, _⟩ | ⟨he, _⟩
  all_goals rw [he] at h
  all_goals simp_all

/-- From the `InTotals` flag state, a step that does not tag its line
`lineItems` stays in the `InTotals` flag state. -/
lemma stepTag_stay_totals (l : Line)
    (h : (stepTag ⟨false, true⟩ l).2 ≠ LineTag.lineItems) :
    (stepTag ⟨false, true⟩ l).1 = ⟨false, true⟩ := by
  rcases stepTag_cases ⟨false, true⟩ l with
    ⟨he, _⟩ | ⟨he, hm⟩ | ⟨he, hi⟩ | ⟨he, hi⟩ | ⟨he, _⟩ | ⟨he, _⟩
  all_goals rw [he] at h ⊢
  all_goals simp_all

/-- Starting from the `InTotals` flag state, the first later line tagged
`lineItems` matches an item indicator. -/
lemma tagsAux_totals_reentry :
    ∀ (rest : List Line) (j : Nat),
      (tagsAux ⟨false, true⟩ rest).getD j LineTag.skipped = LineTag.lineItems →
      ∃ k, k ≤ j ∧ matchesItem (strip (rest.getD k [])) = true := by
  intro rest
  induction rest with
  | nil => intro j h; simp [tagsAux] at h
  | cons l rest ih =>
    intro j h
    rw [tagsAux] at h
    cases j with
    | zero =>
      refine ⟨0, Nat.le_refl 0, ?_⟩
      simpa using stepTag_items_of_totals l (by simpa using h)
    | succ j =>
      by_cases hm : (stepTag ⟨false, true⟩ l).2 = LineTag.lineItems
      · exact ⟨0, Nat.zero_le _, by simpa using stepTag_items_of_totals l hm⟩
      · rw [List.getD_cons_succ] at h
        rw [stepTag_stay_totals l hm] at h
        obtain ⟨k, hk, hmk⟩ := ih j h
        exact ⟨k + 1, Nat.succ_le_succ hk, by simpa using hmk⟩

/-- Trace lemma: between a `totals`-tagged line and any later
`lineItems`-tagged line there is a line matching an item indicator. -/
lemma tagsAux_totals_then_items :
    ∀ (lines : List Line) (st : SMState) (i j : Nat), i < j →
      (tagsAux st lines).getD i LineTag.skipped = LineTag.totals →
      (tagsAux st lines).getD j LineTag.skipped = LineTag.lineItems →
      ∃ k, i < k ∧ k ≤ j ∧ matchesItem (strip (lines.getD k [])) = true := by
  intro lines
  induction lines with
  | nil => intro st i j _ hi _; simp [tagsAux] at hi
  | cons l rest ih =>
    intro st i j hij hi hj
    rw [tagsAux] at hi hj
    cases i with
    | zero =>
      obtain ⟨j', rfl⟩ : ∃ j', j = j' + 1 :=
        ⟨j - 1, by omega⟩
      rw [List.getD_cons_succ] at hj
      have hst : (stepTag st l).1 = ⟨false, true⟩ :=
        stepTag_totals_state st l (by simpa using hi)
      rw [hst] at hj
      obtain ⟨k, hk, hmk⟩ := tagsAux_totals_reentry rest j' hj
      exact ⟨k + 1, Nat.succ_pos _, Nat.succ_le_succ hk, by simpa using hmk⟩
    | succ i' =>
      obtain ⟨j', rfl⟩ : ∃ j', j = j' + 1 :=
        ⟨j - 1, by omega⟩
      rw [List.getD_cons_succ] at hi hj
      obtain ⟨k, hik, hkj, hmk⟩ :=
        ih (stepTag st l).1 i' j' (by omega) hi hj
      exact ⟨k + 1, by omega, by omega, by simpa using hmk⟩

/-! ## Claim C1 — monotonicity of the LineItems → Totals transition -/

/-- C1 counterexample: on the financial input
`"invoice\nitem a\ntotal: 5\nitem b"`, line 2 is assigned to Totals and
the later line 3 is assigned back to LineItems, so classification is not
monotonic. -/
theorem claim1_counterexample :
    isFinancial (str "invoice\nitem a\ntotal: 5\nitem b") = true ∧
    tagAt (linesOf (str "invoice\nitem a\ntotal: 5\nitem b")) 2 = LineTag.totals ∧
    tagAt (linesOf (str "invoice\nitem a\ntotal: 5\nitem b")) 3 = LineTag.lineItems ∧
    (classifyDocx (str "invoice\nitem a\ntotal: 5\nitem b")).items =
      [str "item a", str "item b"] := by
  decide

/-- C1 (amended): on the financial-document path, once a line has been
assigned to the Totals section, a later line is assigned to the
LineItems section only when some line in between (that line included)
matches an item-indicator keyword; re-entry happens exactly at
item-indicator lines. -/
theorem claim1_theorem :
    ∀ (text : Line), isFinancial text = true →
    ∀ i j, i < j →
    tagAt (linesOf text) i = LineTag.totals →
    tagAt (linesOf text) j = LineTag.lineItems →
    ∃ k, i < k ∧ k ≤ j ∧ matchesItem (strip ((linesOf text).getD k [])) = true := by
  intro text _ i j hij hi hj
  exact tagsAux_totals_then_items (linesOf text) ⟨false, false⟩ i j hij hi hj

/-- C1 witness: the amended statement applied to the counterexample input
at `i = 2`, `j = 3`. -/
theorem claim1_witness :
    ∃ k, 2 < k ∧ k ≤ 3 ∧
      matchesItem (strip ((linesOf (str "invoice\nitem a\ntotal: 5\nitem b")).getD k [])) =
        true :=
  claim1_theorem (str "invoice\nitem a\ntotal: 5\nitem b") (by decide) 2 3
    (by decide) (by decide) (by decide)

/-! ## Claim C7 — where total-indicator lines are appended -/

/-- C7 counterexample: on `"invoice\nitem a\nsubtotal 1\ntax 2"`, the line
`"tax 2"` matches a total indicator and no item indicator, and it is
appended to the Totals section while the classifier is in state
`InTotals` (flags `(false, true)`), not `InItems`. -/
theorem claim7_counterexample :
    isFinancial (str "invoice\nitem a\nsubtotal 1\ntax 2") = true ∧
    stateAt (linesOf (str "invoice\nitem a\nsubtotal 1\ntax 2")) 3 = ⟨false, true⟩ ∧
    matchesTotal (strip ((linesOf (str "invoice\nitem a\nsubtotal 1\ntax 2")).getD 3 [])) =
      true ∧
    matchesItem (strip ((linesOf (str "invoice\nitem a\nsubtotal 1\ntax 2")).getD 3 [])) =
      false ∧
    tagAt (linesOf (str "invoice\nitem a\nsubtotal 1\ntax 2")) 3 = LineTag.totals := by
  decide

/-- C7 (amended): a non-blank line matching a total indicator and no item
indicator is appended to the Totals section exactly when the classifier
is in state `InItems` or already in state `InTotals`; when it is still
in `InHeader` (both flags false) the line is appended to the Header
section. -/
theorem claim7_theorem :
    ∀ (st : SMState) (l : Line),
      (strip l).isEmpty = false →
      matchesTotal (strip l) = true →
      matchesItem (strip l) = false →
      (((stepTag st l).2 = LineTag.totals) ↔ (st.inItems = true ∨ st.inTotals = true)) ∧
      (st.inItems = false → st.inTotals = false → (stepTag st l).2 = LineTag.header) := by
  intro st l h1 h2 h3
  obtain ⟨bi, bt⟩ := st
  cases bi <;> cases bt <;> simp [stepTag, h1, h2, h3]

/-- C7 witness: the amended statement applied to the line `"tax 2"` in
state `InHeader` and in state `InItems`. -/
theorem claim7_witness :
    ((stepTag ⟨false, false⟩ (str "tax 2")).2 = LineTag.header) ∧
    ((stepTag ⟨true, false⟩ (str "tax 2")).2 = LineTag.totals) :=
  ⟨(claim7_theorem ⟨false, false⟩ (str "tax 2") (by decide) (by decide) (by decide)).2
      rfl rfl,
   ((claim7_theorem ⟨true, false⟩ (str "tax 2") (by decide) (by decide) (by decide)).1).mpr
      (Or.inl rfl)⟩

/-! ## Claim C2 — docx and xlsx derive the same structured document -/

/-- C2 counterexample: on the financial input
`"invoice\nDescription Qty Price Amount\nWidget 1 2.00 2.00"` the two
writers agree on the partition but emit different item-table header
labels (docx capitalizes, xlsx keeps the raw keywords); and on a first
item line `"Items"` matching no column-header keyword the docx column
count is 1 while xlsx still produces a label row. -/
theorem claim2_counterexample :
    isFinancial (str "invoice\nDescription Qty Price Amount\nWidget 1 2.00 2.00") = true ∧
    (classifyDocx (str "invoice\nDescription Qty Price Amount\nWidget 1 2.00 2.00")).items.headD
      [] = str "Description Qty Price Amount" ∧
    docxHeaders (str "Description Qty Price Amount") =
      [str "Description", str "Qty", str "Price", str "Amount"] ∧
    xlsxColumns (str "Description Qty Price Amount") =
      [str "description", str "qty", str "price", str "amount"] ∧
    docxHeaders (str "Description Qty Price Amount") ≠
      xlsxColumns (str "Description Qty Price Amount") ∧
    docxNumColumns (str "Items") = 1 ∧
    xlsxColumns (str "Items") = [str "item"] := by
  decide

/-- C2 (amended): for every input text the document-writer and the
spreadsheet-writer derive the same partition of lines into Header,
LineItems and Totals (their classification loops are identical); the
item-table column structures they infer from that partition differ in
general. -/
theorem claim2_theorem :
    ∀ (text : Line), classifyDocx text = classifyXlsx text := by
  intro text
  rfl

/-! ## Claim C3 — the Additional Information tail -/

/-- The membership test `line.strip() in [l.strip() for l in total_section]`. -/
def totalsHit (totals : List Line) (l : Line) : Bool :=
  totals.any (fun t => strip t = strip l)

/-- Index of the first line satisfying `p`. -/
def firstHitIdx (p : Line → Bool) : List Line → Option Nat
  | [] => none
  | l :: rest => if p l then some 0 else (firstHitIdx p rest).map (· + 1)

/-- Index of the last line satisfying `p`. -/
def lastHitIdx (p : Line → Bool) : List Line → Option Nat
  | [] => none
  | l :: rest =>
    match lastHitIdx p rest with
    | some i => some (i + 1)
    | none => if p l then some 0 else none

/-- The lines strictly after the first line whose stripped value matches
a Totals-section line. -/
def specTailAfterFirst (totals lines : List Line) : List Line :=
  match firstHitIdx (totalsHit totals) lines with
  | none => []
  | some i => lines.drop (i + 1)

/-- The lines strictly after the last line whose stripped value matches a
Totals-section line — the tail as the claim describes it. -/
def specTailAfterLast (totals lines : List Line) : List Line :=
  match lastHitIdx (totalsHit totals) lines with
  | none => []
  | some i => lines.drop (i + 1)

/-- Once the capture flag is set, every remaining line is captured. -/
lemma captureTail_true (totals : List Line) :
    ∀ lines : List Line, captureTail totals true lines = lines := by
  intro lines
  induction lines with
  | nil => rfl
  | cons l rest ih => rw [captureTail, ih]

/-- C3 counterexample: on `"invoice\nitem a\nsubtotal 1\ntotal 2"` the
Totals section is `["subtotal 1", "total 2"]`; the code captures
`["total 2"]` (everything after the first Totals-valued line) and
renders it, whereas the lines strictly after the last Totals-matched
line form the empty tail. -/
theorem claim3_counterexample :
    (classifyDocx (str "invoice\nitem a\nsubtotal 1\ntotal 2")).totals =
      [str "subtotal 1", str "total 2"] ∧
    docxRemaining (linesOf (str "invoice\nitem a\nsubtotal 1\ntotal 2"))
        ((classifyDocx (str "invoice\nitem a\nsubtotal 1\ntotal 2")).totals) =
      [str "total 2"] ∧
    specTailAfterLast ((classifyDocx (str "invoice\nitem a\nsubtotal 1\ntotal 2")).totals)
        (linesOf (str "invoice\nitem a\nsubtotal 1\ntotal 2")) = [] ∧
    docxRemaining (linesOf (str "invoice\nitem a\nsubtotal 1\ntotal 2"))
        ((classifyDocx (str "invoice\nitem a\nsubtotal 1\ntotal 2")).totals) ≠
      specTailAfterLast ((classifyDocx (str "invoice\nitem a\nsubtotal 1\ntotal 2")).totals)
        (linesOf (str "invoice\nitem a\nsubtotal 1\ntotal 2")) ∧
    renderAddInfo (linesOf (str "invoice\nitem a\nsubtotal 1\ntotal 2"))
        ((classifyDocx (str "invoice\nitem a\nsubtotal 1\ntotal 2")).totals) = true := by
  decide

/-- C3 (amended): the captured Additional Information tail consists of
exactly the lines strictly after the first line of the original
sequence whose stripped value equals the stripped value of some
Totals-section line (matching by value equality, not position; later
Totals lines are themselves captured), and the tail is rendered exactly
when it contains at least one non-blank line. -/
theorem claim3_theorem :
    ∀ (lines totals : List Line),
      docxRemaining lines totals = specTailAfterFirst totals lines ∧
      (renderAddInfo lines totals = true ↔
        ∃ l ∈ docxRemaining lines totals, (strip l).isEmpty = false) := by
  intro lines totals
  constructor
  · induction lines with
    | nil => rfl
    | cons l rest ih =>
      rw [docxRemaining, captureTail] at *
      by_cases h : totals.any (fun t => strip t = strip l)
      · rw [if_pos h, captureTail_true]
        simp [specTailAfterFirst, firstHitIdx, totalsHit, h]
      · rw [if_neg h, ih]
        have h' : totalsHit totals l = false := by
          simpa [totalsHit] using h
        simp only [specTailAfterFirst, firstHitIdx, h', if_false, Bool.false_eq_true]
        cases hf : firstHitIdx (totalsHit totals) rest with
        | none => simp
        | some i => simp [List.drop_succ_cons]
  · simp only [renderAddInfo, Bool.and_eq_true, List.any_eq_true, decide_eq_true_eq]
    constructor
    · exact fun h => h.2
    · intro h
      refine ⟨?_, h⟩
      obtain ⟨l, hl, _⟩ := h
      cases hm : docxRemaining lines totals with
      | nil => rw [hm] at hl; exact absurd hl (List.not_mem_nil l)
      | cons a as => rfl

/-! ## Claim C4 — column count and header labels from the first item line -/

/-- C4: when the first item line matches a column-header keyword, the docx
column count is `max(#indicators present, 2)` and the labels are the
capitalized hits among description/qty/price/amount padded with
`"Column N"`; on `"Description Qty Price Amount"` (reached through the
full pipeline) this gives 4 columns with the four capitalized labels. -/
theorem claim4_theorem :
    (∀ l : Line, firstLineMatches l = true →
      docxNumColumns l = max (indicatorCount l) 2 ∧
      docxHeaders l = padHeaders (headerBase l) (max (indicatorCount l) 2)) ∧
    isFinancial (str "invoice\nDescription Qty Price Amount\nWidget A 3 10.50 31.50") =
      true ∧
    (classifyDocx
        (str "invoice\nDescription Qty Price Amount\nWidget A 3 10.50 31.50")).items.headD
      [] = str "Description Qty Price Amount" ∧
    docxNumColumns (str "Description Qty Price Amount") = 4 ∧
    docxHeaders (str "Description Qty Price Amount") =
      [str "Description", str "Qty", str "Price", str "Amount"] := by
  refine ⟨?_, by decide, by decide, by decide, by decide⟩
  intro l h
  exact ⟨by simp [docxNumColumns, h], by simp [docxHeaders, docxNumColumns, h]⟩

/-- C4 witness: the general statement applied to the header line of the
spec example. -/
theorem claim4_witness :
    docxNumColumns (str "Description Qty Price Amount") =
        max (indicatorCount (str "Description Qty Price Amount")) 2 ∧
    docxHeaders (str "Description Qty Price Amount") =
        padHeaders (headerBase (str "Description Qty Price Amount"))
          (max (indicatorCount (str "Description Qty Price Amount")) 2) :=
  claim4_theorem.1 (str "Description Qty Price Amount") (by decide)

/-! ## Claim C5 — item data row cell extraction -/

/-- C5: a data row with two or more numeric tokens yields the stripped
leading fragment (omitted when empty) followed by the tokens in order;
with fewer than two it yields the whole line as a single cell; on
`"Widget A 3 10.50 31.50"` the tokens are `["3","10.50","31.50"]` and
the cells `["Widget A","3","10.50","31.50"]`. -/
theorem claim5_theorem :
    (∀ line : Line, 2 ≤ (findNums line).length →
      itemCells line =
        (if (strip (beforeFirstNum line)).isEmpty then findNums line
         else strip (beforeFirstNum line) :: findNums line)) ∧
    (∀ line : Line, (findNums line).length < 2 → itemCells line = [line]) ∧
    findNums (str "Widget A 3 10.50 31.50") = [str "3", str "10.50", str "31.50"] ∧
    itemCells (str "Widget A 3 10.50 31.50") =
      [str "Widget A", str "3", str "10.50", str "31.50"] := by
  refine ⟨?_, ?_, by decide, by decide⟩
  · intro line h
    have hne : (findNums line).isEmpty = false := by
      cases hf : findNums line with
      | nil => rw [hf] at h; simp at h
      | cons a as => rfl
    simp [itemCells, hne, h]
  · intro line h
    have h2 : ¬ 2 ≤ (findNums line).length := by omega
    simp [itemCells, h2]

/-- C5 witness: the two-or-more-tokens case applied to the spec example. -/
theorem claim5_witness :
    itemCells (str "Widget A 3 10.50 31.50") =
      (if (strip (beforeFirstNum (str "Widget A 3 10.50 31.50"))).isEmpty then
        findNums (str "Widget A 3 10.50 31.50")
       else
        strip (beforeFirstNum (str "Widget A 3 10.50 31.50")) ::
          findNums (str "Widget A 3 10.50 31.50")) :=
  claim5_theorem.1 (str "Widget A 3 10.50 31.50") (by decide)

/-! ## Claim C6 — key/value decomposition of Header and Totals lines -/

/-- A line with a colon in its tail has a colon. -/
lemma hasColon_append (a b : Line) : hasColon (a ++ ':' :: b) = true := by
  simp only [hasColon, List.any_eq_true, decide_eq_true_eq]
  exact ⟨':', List.mem_append_right a (List.mem_cons_self ':' b), rfl⟩

/-- `split(':', 1)` splits at the first colon. -/
lemma splitColon_append (a b : Line) (ha : hasColon a = false) :
    splitColon (a ++ ':' :: b) = (a, b) := by
  induction a with
  | nil => simp [splitColon]
  | cons c cs ih =>
    simp only [hasColon, List.any_cons, Bool.or_eq_false_iff] at ha
    obtain ⟨hc, hrest⟩ := ha
    rw [List.cons_append, splitColon, if_neg (by simpa using hc),
      ih (by simpa [hasColon] using hrest)]

/-- C6: a Header or Totals line of the form `a ++ ":" ++ b` with no colon
in `a` is split exactly once at that first colon into the trimmed pair
`(a, b)`; a colon-free Totals line matching the currency pattern, such
as `"150.00 AED"`, decomposes into the empty description and the
amount-with-currency cell. -/
theorem claim6_theorem :
    (∀ (line a b : Line), line = a ++ ':' :: b → hasColon a = false →
      headerRowOf line = HdrRow.pair (strip a) (strip b) ∧
      totalsRowOf line = TotRow.pair (strip a) (strip b)) ∧
    totalsRowOf (str "150.00 AED") = TotRow.amount [] (str "150.00 AED") := by
  refine ⟨?_, by decide⟩
  rintro line a b rfl ha
  have hc := hasColon_append a b
  have hs := splitColon_append a b ha
  exact ⟨by simp [headerRowOf, hc, hs], by simp [totalsRowOf, hc, hs]⟩

/-- C6 witness: the colon split applied to `"Total: 150.00 AED"`. -/
theorem claim6_witness :
    headerRowOf (str "Total: 150.00 AED") =
        HdrRow.pair (strip (str "Total")) (strip (str " 150.00 AED")) ∧
    totalsRowOf (str "Total: 150.00 AED") =
        TotRow.pair (strip (str "Total")) (strip (str " 150.00 AED")) :=
  claim6_theorem.1 (str "Total: 150.00 AED") (str "Total") (str " 150.00 AED")
    (by decide) (by decide)

/-! ## Claim C8 — fallback path for non-financial documents -/

/-- C8: on the fallback path each raw line yields exactly one spreadsheet
row and one document paragraph; a row is split on the first colon into
two trimmed cells when a colon is present, and is the raw line as a
single cell otherwise. -/
theorem claim8_theorem :
    (∀ text : Line, isFinancial text = false →
      (xlsxFallback text).length = (splitOnChar '\n' text).length ∧
      (docxFallbackParas text).length = (splitOnChar '\n' text).length) ∧
    (∀ (line a b : Line), line = a ++ ':' :: b → hasColon a = false →
      fallbackRow line = [strip a, strip b]) ∧
    (∀ line : Line, hasColon line = false → fallbackRow line = [line]) := by
  refine ⟨?_, ?_, ?_⟩
  · intro text _
    exact ⟨by simp [xlsxFallback], rfl⟩
  · rintro line a b rfl ha
    simp [fallbackRow, hasColon_append, splitColon_append a b ha]
  · intro line h
    simp [fallbackRow, h]

/-- C8 witness: the fallback shape on the non-financial text
`"name: alice\nage"`. -/
theorem claim8_witness :
    ((xlsxFallback (str "name: alice\nage")).length =
        (splitOnChar '\n' (str "name: alice\nage")).length ∧
      (docxFallbackParas (str "name: alice\nage")).length =
        (splitOnChar '\n' (str "name: alice\nage")).length) ∧
    fallbackRow (str "name: alice") = [strip (str "name"), strip (str " alice")] ∧
    fallbackRow (str "age") = [str "age"] :=
  ⟨claim8_theorem.1 (str "name: alice\nage") (by decide),
   claim8_theorem.2.1 (str "name: alice") (str "name") (str " alice") (by decide)
     (by decide),
   claim8_theorem.2.2 (str "age") (by decide)⟩

/-! ## Claim C9 — totality and empty input -/

/-- C9: classification of the empty text yields a structured document with
all three sections empty (classification is a total function by
construction), and every renderer block tolerates empty sections,
producing zero rows. -/
theorem claim9_theorem :
    (classifyDocx (str "")).header = [] ∧
    (classifyDocx (str "")).items = [] ∧
    (classifyDocx (str "")).totals = [] ∧
    (classifyXlsx (str "")).header = [] ∧
    (classifyXlsx (str "")).items = [] ∧
    (classifyXlsx (str "")).totals = [] ∧
    classifyLinesDocx [] = initAcc ∧
    docxHeaderRows [] = [] ∧
    docxItemsBlock [] = none ∧
    docxTotalsRows [] = [] := by
  decide

/-! ## Claim C10 — financial detection is a substring test, and `"po"` -/

/-- `leadsWith` recognises exactly the prefix relation. -/
lemma leadsWith_iff (p : Line) : ∀ l : Line, leadsWith p l = true ↔ ∃ t, l = p ++ t := by
  induction p with
  | nil =>
    intro l
    simp only [leadsWith, List.nil_append, true_iff]
    exact ⟨l, rfl⟩
  | cons x ps ih =>
    intro l
    cases l with
    | nil =>
      simp only [leadsWith, Bool.false_eq_true, false_iff]
      rintro ⟨t, ht⟩
      exact List.cons_ne_nil x (ps ++ t) ht.symm
    | cons c cs =>
      rw [leadsWith]
      simp only [Bool.and_eq_true, decide_eq_true_eq, ih]
      constructor
      · rintro ⟨rfl, t, rfl⟩
        exact ⟨t, rfl⟩
      · rintro ⟨t, ht⟩
        injection ht with h1 h2
        exact ⟨h1.symm, t, h2⟩

/-- `hasSubstr` recognises exactly the contiguous-substring relation. -/
lemma hasSubstr_iff (pat : Line) :
    ∀ l : Line, hasSubstr pat l = true ↔ ∃ a t, l = a ++ pat ++ t := by
  intro l
  induction l with
  | nil =>
    simp only [hasSubstr, List.isEmpty_iff]
    constructor
    · rintro rfl
      exact ⟨[], [], rfl⟩
    · rintro ⟨a, t, h⟩
      have hlen := congrArg List.length h
      simp only [List.length_nil, List.length_append] at hlen
      have : pat.length = 0 := by omega
      exact List.length_eq_zero.mp this
  | cons c cs ih =>
    rw [hasSubstr]
    simp only [Bool.or_eq_true, leadsWith_iff, ih]
    constructor
    · rintro (⟨t, ht⟩ | ⟨a, t, rfl⟩)
      · exact ⟨[], t, by simpa using ht⟩
      · exact ⟨c :: a, t, rfl⟩
    · rintro ⟨a, t, h⟩
      cases a with
      | nil =>
        left
        exact ⟨t, by simpa using h⟩
      | cons x xs =>
        right
        injection h with h1 h2
        exact ⟨xs, t, h2⟩

/-- C10: the financial path is taken exactly when the lowercased text has
some keyword of the fixed list as a contiguous substring; since `"po"`
is in the list, any text whose lowercased form contains `"po"` — such
as `"Annual report"` — is treated as financial and never falls back. -/
theorem claim10_theorem :
    (∀ text : Line, isFinancial text = true ↔
      ∃ kw ∈ financialKeywords, ∃ a t, lower text = a ++ kw ++ t) ∧
    (∀ text : Line, hasSubstr (str "po") (lower text) = true →
      isFinancial text = true) ∧
    isFinancial (str "Annual report") = true ∧
    isFinancial (str "hello world") = false := by
  refine ⟨?_, ?_, by decide, by decide⟩
  · intro text
    simp only [isFinancial, List.any_eq_true, hasSubstr_iff]
  · intro text h
    rw [isFinancial, List.any_eq_true]
    exact ⟨str "po", by decide, h⟩

/-- C10 witness: `"Annual report"` contains `"po"` (inside `"report"`),
hence is detected as financial. -/
theorem claim10_witness : isFinancial (str "Annual report") = true :=
  claim10_theorem.2.1 (str "Annual report") (by decide)
